import Mathlib

/-!
Verification of the stream-buffering adapters of sonance.js.

The development shallowly embeds the two adapters of the repository:

* the Capture Adapter (`AudioReadStream` in `src/audio-read-stream.ts`,
  `AudioInputStream` in the unnamed input-stream source; both share the
  identical frame-callback logic), modelled by `Sonance.CaptureState`,
  `Sonance.frameCallback` and the consumer-side operations; and
* the Playback Adapter (`AudioWriteStream` in `src/audio-write-stream.ts`),
  modelled by `Sonance.PlaybackState`, `Sonance.writeFrameCallback`,
  `Sonance.writeOne`, `Sonance.writeMany` and `Sonance.destroyWrite`.

Frames are abstracted as natural numbers on the capture side (their
contents are opaque to the adapter) and as byte lists on the playback
side (the adapter slices them).  The Node `Readable.push` contract is
embedded in `Sonance.pushRaw`: pushing `null` signals end-of-stream once
(later pushes are no-ops), a data push appends to the consumer-visible
log and returns the consumer's backpressure verdict, which the run
supplies as an oracle on each frame event.
-/

set_option maxRecDepth 4096

namespace Sonance

/-- Sample formats handled by `formatToByteCount` in `src/common.ts`
(the five cases of its switch statement). -/
inductive RtAudioFormat where
  | sint8
  | sint16
  | sint32
  | float32
  | float64
  deriving Repr, DecidableEq

/-- Embeds `formatToByteCount` from `src/common.ts` (shown in the README):
bytes per sample for each supported format. -/
def formatToByteCount : RtAudioFormat → Nat
  | RtAudioFormat.sint8 => 1
  | RtAudioFormat.sint16 => 2
  | RtAudioFormat.sint32 => 4
  | RtAudioFormat.float32 => 4
  | RtAudioFormat.float64 => 8

/-- Embeds the `AudioIOParams` construction record (`src/common.ts` /
the unnamed `types.ts`).  Optional fields are `Option`s; the JS
`params.format || RTAUDIO_SINT16` default is modelled with `Option.getD`
(every format enum value is truthy). -/
structure AudioIOParams where
  deviceId : Nat
  channels : Nat
  firstChannel : Option Nat
  fmt : Option RtAudioFormat
  sampleRate : Nat
  bufferFrames : Nat
  highWaterMark : Option Nat
  deriving Repr, DecidableEq

/-- Embeds the `chunkSize` computation of the `AudioWriteStream`
constructor (`src/audio-write-stream.ts` line 45):
`bufferFrames * channels * formatToByteCount(format || SINT16)`. -/
def chunkSizeOf (p : AudioIOParams) : Nat :=
  p.bufferFrames * p.channels * formatToByteCount (p.fmt.getD RtAudioFormat.sint16)

/-- Embeds the `highWaterMark` computed by the `AudioReadStream`
constructor (`src/audio-read-stream.ts` line 25) and the
`AudioInputStream` constructor: the chunk byte size.  Note the source
never consults `params.highWaterMark` here. -/
def readHighWaterMark (p : AudioIOParams) : Nat :=
  p.bufferFrames * p.channels * formatToByteCount (p.fmt.getD RtAudioFormat.sint16)

/-- Embeds the `highWaterMark` of the `AudioWriteStream` constructor
(`src/audio-write-stream.ts` line 46): `params.highWaterMark || chunkSize`
(a missing or zero value falls back to the chunk size). -/
def writeHighWaterMark (p : AudioIOParams) : Nat :=
  match p.highWaterMark with
  | none => chunkSizeOf p
  | some h => if h = 0 then chunkSizeOf p else h

/-- State of the Capture Adapter (`AudioReadStream`).  `buffer` is the
`_buffer` field, a queue of frames where `none` is the end-of-stream
sentinel; the `should*` flags are the corresponding private fields;
`closed`, `streamOpen`, `streamRunning`, `destroyed` model the Node
stream's `closed` flag and the Audio Engine handle; `ended` and
`observed` model the consumer side of `Readable.push` (`ended` is set
once `push(null)` is accepted, `observed` logs every consumer-visible
push); `closeSignals` logs invocations of the `_destroy` callback. -/
structure CaptureState where
  buffer : List (Option Nat)
  shouldBuffer : Bool
  shouldStop : Bool
  shouldClearBuffer : Bool
  closed : Bool
  streamOpen : Bool
  streamRunning : Bool
  destroyed : Bool
  ended : Bool
  observed : List (Option Nat)
  closeSignals : List (Option Nat)
  deriving Repr, DecidableEq

/-- State of a freshly constructed Capture Adapter: empty queue,
`_shouldBuffer = true`, other flags false, hardware stream opened and
started by the constructor. -/
def initCapture : CaptureState :=
  { buffer := []
    shouldBuffer := true
    shouldStop := false
    shouldClearBuffer := false
    closed := false
    streamOpen := true
    streamRunning := true
    destroyed := false
    ended := false
    observed := []
    closeSignals := [] }

/-- Embeds Node's `Readable.push` as seen by the adapter: pushing after
end-of-stream has no effect and returns `false`; `push(null)` marks
end-of-stream and returns `false`; a data push is appended to the
consumer-visible log and returns the consumer's backpressure verdict
`ok` (false means the consumer is saturated). -/
def pushRaw (s : CaptureState) (x : Option Nat) (ok : Bool) : CaptureState × Bool :=
  if s.ended then (s, false)
  else
    match x with
    | none => ({ s with ended := true, observed := s.observed ++ [none] }, false)
    | some f => ({ s with observed := s.observed ++ [some f] }, ok)

/-- Embeds the `if (!this.push(x)) { this._shouldBuffer = true }` call
sites of the frame callback. -/
def pushChecked (s : CaptureState) (x : Option Nat) (ok : Bool) : CaptureState :=
  let r := pushRaw s x ok
  if r.2 then r.1 else { r.1 with shouldBuffer := true }

/-- Embeds the realtime frame callback registered in the `AudioReadStream`
constructor (`src/audio-read-stream.ts` lines 51-111): the clearing
check, the closed check, the stopping branch (drain then `push(null)`),
and the FIFO pass-through branch.  `input` is the frame delivered by the
Audio Engine, `ok` the consumer's backpressure verdict for a data push. -/
def frameCallback (s : CaptureState) (input : Nat) (ok : Bool) : CaptureState :=
  if s.shouldClearBuffer then { s with shouldClearBuffer := false, buffer := [] }
  else if s.closed then s
  else if s.shouldStop then
    if s.shouldBuffer then
      if s.buffer = [] then (pushRaw s none ok).1
      else { s with buffer := s.buffer ++ [none] }
    else
      match s.buffer with
      | [] => (pushRaw s none ok).1
      | x :: rest => pushChecked { s with buffer := rest } x ok
  else
    if s.shouldBuffer then { s with buffer := s.buffer ++ [some input] }
    else
      match s.buffer with
      | [] => pushChecked s (some input) ok
      | x :: rest => pushChecked { s with buffer := rest ++ [some input] } x ok

/-- Embeds `AudioReadStream._read`: clears `_shouldBuffer`. -/
def readRequest (s : CaptureState) : CaptureState :=
  { s with shouldBuffer := false }

/-- Embeds `AudioReadStream.pause`: sets `_shouldBuffer`. -/
def pauseConsumer (s : CaptureState) : CaptureState :=
  { s with shouldBuffer := true }

/-- Embeds `AudioReadStream.resume`: clears `_shouldBuffer`. -/
def resumeConsumer (s : CaptureState) : CaptureState :=
  { s with shouldBuffer := false }

/-- Embeds `AudioReadStream.stopAudio`: sets `_shouldStop`. -/
def stopAudio (s : CaptureState) : CaptureState :=
  { s with shouldStop := true }

/-- Embeds `AudioReadStream.pauseAudio`: aborts the hardware stream when
it is running. -/
def pauseAudio (s : CaptureState) : CaptureState :=
  if s.streamRunning then { s with streamRunning := false } else s

/-- Embeds `AudioReadStream.resumeAudio`: when the hardware stream is not
running, clears the queue, arms the one-shot clearing flag and restarts. -/
def resumeAudio (s : CaptureState) : CaptureState :=
  if s.streamRunning then s
  else { s with buffer := [], shouldClearBuffer := true, streamRunning := true }

/-- Embeds `AudioReadStream._destroy` together with Node's destroy
deduplication (Node invokes `_destroy` at most once): close the hardware
stream if open, then invoke the completion callback with the error. -/
def destroyRead (s : CaptureState) (err : Option Nat) : CaptureState :=
  if s.destroyed then s
  else
    let s1 := { s with destroyed := true, closed := true }
    let s2 :=
      if s1.streamOpen then { s1 with streamOpen := false, streamRunning := false } else s1
    { s2 with closeSignals := s2.closeSignals ++ [err] }

/-- Events acting on a Capture Adapter: a realtime frame arrival (with
the consumer's backpressure verdict), the consumer-side flow-control
calls, `stopAudio`, the hardware pause/resume pair, and destroy. -/
inductive CEvent where
  | frame (input : Nat) (ok : Bool)
  | read
  | pauseC
  | resumeC
  | stop
  | hwPause
  | hwResume
  | destroy (err : Option Nat)
  deriving Repr, DecidableEq

/-- One event step.  The Audio Engine invokes the frame callback only
while the hardware stream is running. -/
def stepC (s : CaptureState) (e : CEvent) : CaptureState :=
  match e with
  | CEvent.frame input ok => if s.streamRunning then frameCallback s input ok else s
  | CEvent.read => readRequest s
  | CEvent.pauseC => pauseConsumer s
  | CEvent.resumeC => resumeConsumer s
  | CEvent.stop => stopAudio s
  | CEvent.hwPause => pauseAudio s
  | CEvent.hwResume => resumeAudio s
  | CEvent.destroy err => destroyRead s err

/-- Run a sequence of events. -/
def runC (s : CaptureState) (evs : List CEvent) : CaptureState :=
  evs.foldl stepC s

/-- The frames delivered by the Audio Engine across a sequence of events,
in arrival order. -/
def arrivals (evs : List CEvent) : List Nat :=
  evs.filterMap fun e =>
    match e with
    | CEvent.frame input _ => some input
    | _ => none

/-- The data frames the consumer has observed, in order (end-of-stream
signals filtered out). -/
def dataObserved (s : CaptureState) : List Nat :=
  s.observed.filterMap id

/-- The data frames currently queued, head first (sentinels filtered out). -/
def dataBuffered (s : CaptureState) : List Nat :=
  s.buffer.filterMap id

/-- Steady-operation events: frame arrivals and consumer saturation or
readiness transitions only — no stop, no hardware pause, no destroy. -/
def goodEvent : CEvent → Bool
  | CEvent.frame _ _ => true
  | CEvent.read => true
  | CEvent.pauseC => true
  | CEvent.resumeC => true
  | _ => false

/-- Number of frames that arrive while the consumer is saturated
(`_shouldBuffer` true at the moment of arrival). -/
def satCount (s : CaptureState) : List CEvent → Nat
  | [] => 0
  | e :: rest =>
      (match e with
       | CEvent.frame _ _ => if s.shouldBuffer then 1 else 0
       | _ => 0) + satCount (stepC s e) rest

/-- Embeds `merge` from `src/audio-write-stream.ts` lines 6-11: the
concatenation of two byte sequences (the source allocates a fresh
`Uint8Array` and copies `u1` then `u2` into it). -/
def merge (u1 u2 : List Nat) : List Nat :=
  u1 ++ u2

/-- Embeds `head` from `src/audio-write-stream.ts` lines 13-22: when the
buffer holds fewer than `n` bytes the head slice is empty and the rest
is the whole buffer; otherwise the head is the first `n` bytes and the
rest is everything after them. -/
def headSplit (u : List Nat) (n : Nat) : List Nat × List Nat :=
  if u.length < n then ([], u)
  else (u.take n, u.drop n)

/-- State of the Playback Adapter (`AudioWriteStream`).  `buffer` is the
`_buffer` accumulator, `chunkSize` the `_chunkSize` field, `shouldClose`
the `_shouldClose` flag; `destroyCbSet`/`destroyError` model the
deferred `_destroyCallback`/`_destroyError` pair (`destroyCbSet` is
false while `_destroyCallback` is still the initial no-op); `destroyed`
models Node's once-only invocation of `_destroy`.  Ghost observation
logs: `outputs` records the slice copied into the Audio Engine output
buffer by each callback that copied one, `processed` counts
`api:processed` events, `acks` counts completion callbacks of
`_write`/`_writev`, `accepted` records every byte appended to the
accumulator, `closeSignals` logs invocations of a real (non-no-op)
destroy completion callback, `underflows` counts `api:underflow`. -/
structure PlaybackState where
  chunkSize : Nat
  buffer : List Nat
  shouldClose : Bool
  streamOpen : Bool
  streamRunning : Bool
  destroyed : Bool
  destroyCbSet : Bool
  destroyError : Option Nat
  outputs : List (List Nat)
  processed : Nat
  acks : Nat
  accepted : List Nat
  closeSignals : List (Option Nat)
  underflows : Nat
  deriving Repr, DecidableEq

/-- State of a freshly constructed Playback Adapter for parameters `p`:
`_chunkSize` computed from the parameters, empty accumulator, hardware
stream opened and started. -/
def initPlayback (p : AudioIOParams) : PlaybackState :=
  { chunkSize := chunkSizeOf p
    buffer := []
    shouldClose := false
    streamOpen := true
    streamRunning := true
    destroyed := false
    destroyCbSet := false
    destroyError := none
    outputs := []
    processed := 0
    acks := 0
    accepted := []
    closeSignals := []
    underflows := 0 }

/-- Embeds the realtime frame callback registered in the
`AudioWriteStream` constructor (`src/audio-write-stream.ts` lines
72-88): split off a `_chunkSize` head, keep the rest; if the head is
non-empty copy it to the output buffer and emit `api:processed`; else if
`_shouldClose` close the hardware stream and run the deferred destroy
callback; finally report an engine underflow status if one was given. -/
def writeFrameCallback (s : PlaybackState) (underflowStatus : Bool) : PlaybackState :=
  let p := headSplit s.buffer s.chunkSize
  let s1 := { s with buffer := p.2 }
  let s2 :=
    if 0 < p.1.length then
      { s1 with outputs := s1.outputs ++ [p.1], processed := s1.processed + 1 }
    else if s1.shouldClose then
      { s1 with
          streamOpen := false
          streamRunning := false
          closeSignals :=
            if s1.destroyCbSet then s1.closeSignals ++ [s1.destroyError]
            else s1.closeSignals }
    else s1
  if underflowStatus then { s2 with underflows := s2.underflows + 1 } else s2

/-- Embeds `AudioWriteStream._write` (lines 117-127): when the hardware
stream is running, merge the chunk into the accumulator; either way
invoke the completion callback immediately.  (The `isUint8Array` guard
cannot fire here: every `List Nat` models a valid `Uint8Array`.) -/
def writeOne (s : PlaybackState) (chunk : List Nat) : PlaybackState :=
  if s.streamRunning then
    { s with
        buffer := merge s.buffer chunk
        accepted := s.accepted ++ chunk
        acks := s.acks + 1 }
  else { s with acks := s.acks + 1 }

/-- Embeds `AudioWriteStream._writev` (lines 139-151): when the hardware
stream is running, merge each chunk of the batch into the accumulator in
order; either way invoke the completion callback immediately. -/
def writeMany (s : PlaybackState) (chunks : List (List Nat)) : PlaybackState :=
  if s.streamRunning then
    { s with
        buffer := chunks.foldl merge s.buffer
        accepted := chunks.foldl merge s.accepted
        acks := s.acks + 1 }
  else { s with acks := s.acks + 1 }

/-- Embeds `AudioWriteStream._destroy` (lines 129-137) together with
Node's destroy deduplication: set `_shouldClose`; if the hardware stream
is still open, capture the callback and error for the realtime path,
otherwise invoke the callback immediately. -/
def destroyWrite (s : PlaybackState) (err : Option Nat) : PlaybackState :=
  if s.destroyed then s
  else
    let s1 := { s with destroyed := true, shouldClose := true }
    if s1.streamOpen then { s1 with destroyCbSet := true, destroyError := err }
    else { s1 with closeSignals := s1.closeSignals ++ [err] }

/-- Embeds `AudioWriteStream._final` (lines 153-156): set `_shouldClose`. -/
def finalWrite (s : PlaybackState) : PlaybackState :=
  { s with shouldClose := true }

/-- Events acting on a Playback Adapter. -/
inductive PEvent where
  | write (chunk : List Nat)
  | writev (chunks : List (List Nat))
  | cb (underflowStatus : Bool)
  | destroy (err : Option Nat)
  | finalize
  deriving Repr, DecidableEq

/-- One event step.  The Audio Engine invokes the frame callback only
while the hardware stream is running. -/
def stepP (s : PlaybackState) (e : PEvent) : PlaybackState :=
  match e with
  | PEvent.write chunk => writeOne s chunk
  | PEvent.writev chunks => writeMany s chunks
  | PEvent.cb u => if s.streamRunning then writeFrameCallback s u else s
  | PEvent.destroy err => destroyWrite s err
  | PEvent.finalize => finalWrite s

/-- Run a sequence of playback events. -/
def runP (s : PlaybackState) (evs : List PEvent) : PlaybackState :=
  evs.foldl stepP s

/-- The state of a Capture Adapter after steady events `evs1`, a
`stopAudio()` call, and enough further realtime callbacks (with a ready,
accepting consumer) to drain the queue and emit the end sentinel: one
callback per queued frame plus one for the terminal `null`. -/
def stopThenDrain (evs1 : List CEvent) : CaptureState :=
  runC initCapture (evs1 ++ CEvent.stop ::
    List.replicate ((runC initCapture evs1).buffer.length + 1) (CEvent.frame 0 true))

/-- Construction parameters of the spec scenario: frame size 4, one
channel, 16-bit samples, so `chunkBytes = 8`. -/
def paramsScenario : AudioIOParams :=
  { deviceId := 0, channels := 1, firstChannel := some 0,
    fmt := some RtAudioFormat.sint16, sampleRate := 44100, bufferFrames := 4,
    highWaterMark := none }

/-- Construction parameters with the sample format omitted (defaults to
16-bit signed). -/
def paramsDefaultFmt : AudioIOParams :=
  { deviceId := 0, channels := 1, firstChannel := none, fmt := none,
    sampleRate := 44100, bufferFrames := 4, highWaterMark := none }

/-- Construction parameters carrying an explicit high-water-mark
override of 999 bytes. -/
def paramsOverride : AudioIOParams :=
  { deviceId := 0, channels := 1, firstChannel := none,
    fmt := some RtAudioFormat.sint16, sampleRate := 44100, bufferFrames := 4,
    highWaterMark := some 999 }

/-- A Playback Adapter whose hardware stream is not running. -/
def pausedPlayback : PlaybackState :=
  { initPlayback paramsScenario with streamRunning := false }

/-- A Playback Adapter whose hardware stream is already closed. -/
def closedPlayback : PlaybackState :=
  { initPlayback paramsScenario with streamOpen := false, streamRunning := false }

/-- Concrete Capture Adapter state shortly after a `stopAudio()` call:
one frame still queued, one already delivered, consumer ready. -/
def postStopSample : CaptureState :=
  { buffer := [some 7]
    shouldBuffer := false
    shouldStop := true
    shouldClearBuffer := false
    closed := false
    streamOpen := true
    streamRunning := true
    destroyed := false
    ended := false
    observed := [some 4]
    closeSignals := [] }

/-- Steady operation of the Capture Adapter: no stop requested, no
pending clear, stream neither closed nor ended, hardware running, and no
end-of-stream sentinel in the queue or the consumer log. -/
def SteadyOK (s : CaptureState) : Prop :=
  s.shouldStop = false ∧ s.shouldClearBuffer = false ∧ s.closed = false ∧
    s.ended = false ∧ s.streamRunning = true ∧
    (∀ x ∈ s.buffer, x ≠ none) ∧ ∀ x ∈ s.observed, x ≠ none

lemma initCapture_steady : SteadyOK initCapture := by
  simp [SteadyOK, initCapture]

lemma runC_nil (s : CaptureState) : runC s [] = s := rfl

lemma runC_cons (s : CaptureState) (e : CEvent) (evs : List CEvent) :
    runC s (e :: evs) = runC (stepC s e) evs := rfl

lemma runC_append (s : CaptureState) (l1 l2 : List CEvent) :
    runC s (l1 ++ l2) = runC (runC s l1) l2 := by
  simp [runC, List.foldl_append]

lemma satCount_single (s : CaptureState) (i : Nat) (ok : Bool) :
    satCount s [CEvent.frame i ok] = if s.shouldBuffer then 1 else 0 := by
  simp [satCount]

lemma steady_step (s : CaptureState) (e : CEvent) (hs : SteadyOK s)
    (hge : goodEvent e = true) :
    SteadyOK (stepC s e) ∧
      dataObserved (stepC s e) ++ dataBuffered (stepC s e)
        = dataObserved s ++ dataBuffered s ++ arrivals [e] ∧
      (stepC s e).buffer.length ≤ s.buffer.length + satCount s [e] := by
  obtain ⟨h1, h2, h3, h4, h5, h6, h7⟩ := hs
  cases e with
  | frame i ok =>
      have hrun : stepC s (CEvent.frame i ok) = frameCallback s i ok := by
        simp [stepC, h5]
      cases hb : s.shouldBuffer with
      | true =>
          have hres : frameCallback s i ok = { s with buffer := s.buffer ++ [some i] } := by
            simp [frameCallback, h1, h2, h3, hb]
          rw [hrun, hres]
          refine ⟨⟨h1, h2, h3, h4, h5, ?_, h7⟩, ?_, ?_⟩
          · intro x hx
            rcases List.mem_append.mp hx with hx | hx
            · exact h6 x hx
            · simp at hx
              simp [hx]
          · simp [dataObserved, dataBuffered, arrivals, List.filterMap_append]
          · rw [satCount_single]
            simp [hb]
      | false =>
          cases hbuf : s.buffer with
          | nil =>
              have hres : frameCallback s i ok
                  = pushChecked s (some i) ok := by
                simp [frameCallback, h1, h2, h3, hb, hbuf]
              rw [hrun, hres]
              cases ok with
              | true =>
                  have hres2 : pushChecked s (some i) true
                      = { s with observed := s.observed ++ [some i] } := by
                    simp [pushChecked, pushRaw, h4]
                  rw [hres2]
                  refine ⟨⟨h1, h2, h3, h4, h5, h6, ?_⟩, ?_, ?_⟩
                  · intro x hx
                    rcases List.mem_append.mp hx with hx | hx
                    · exact h7 x hx
                    · simp at hx
                      simp [hx]
                  · simp [dataObserved, dataBuffered, arrivals, hbuf,
                      List.filterMap_append]
                  · rw [satCount_single]
                    simp [hb, hbuf]
              | false =>
                  have hres2 : pushChecked s (some i) false
                      = { s with
                            observed := s.observed ++ [some i]
                            shouldBuffer := true } := by
                    simp [pushChecked, pushRaw, h4]
                  rw [hres2]
                  refine ⟨⟨h1, h2, h3, h4, h5, h6, ?_⟩, ?_, ?_⟩
                  · intro x hx
                    rcases List.mem_append.mp hx with hx | hx
                    · exact h7 x hx
                    · simp at hx
                      simp [hx]
                  · simp [dataObserved, dataBuffered, arrivals, hbuf,
                      List.filterMap_append]
                  · rw [satCount_single]
                    simp [hb, hbuf]
          | cons x rest =>
              obtain ⟨f, rfl⟩ : ∃ f, x = some f := by
                cases x with
                | none => exact absurd rfl (h6 none (by simp [hbuf]))
                | some f => exact ⟨f, rfl⟩
              have hres : frameCallback s i ok
                  = pushChecked { s with buffer := rest ++ [some i] } (some f) ok := by
                simp [frameCallback, h1, h2, h3, hb, hbuf]
              have hmem : ∀ y ∈ rest ++ [some i], y ≠ none := by
                intro y hy
                rcases List.mem_append.mp hy with hy | hy
                · exact h6 y (by simp [hbuf, hy])
                · simp at hy
                  simp [hy]
              have hobs : ∀ y ∈ s.observed ++ [some f], y ≠ none := by
                intro y hy
                rcases List.mem_append.mp hy with hy | hy
                · exact h7 y hy
                · simp at hy
                  simp [hy]
              rw [hrun, hres]
              cases ok with
              | true =>
                  have hres2 : pushChecked { s with buffer := rest ++ [some i] } (some f) true
                      = { s with
                            buffer := rest ++ [some i]
                            observed := s.observed ++ [some f] } := by
                    simp [pushChecked, pushRaw, h4]
                  rw [hres2]
                  refine ⟨⟨h1, h2, h3, h4, h5, hmem, hobs⟩, ?_, ?_⟩
                  · simp [dataObserved, dataBuffered, arrivals, hbuf,
                      List.filterMap_append]
                  · rw [satCount_single]
                    simp [hb, hbuf]
              | false =>
                  have hres2 : pushChecked { s with buffer := rest ++ [some i] } (some f) false
                      = { s with
                            buffer := rest ++ [some i]
                            observed := s.observed ++ [some f]
                            shouldBuffer := true } := by
                    simp [pushChecked, pushRaw, h4]
                  rw [hres2]
                  refine ⟨⟨h1, h2, h3, h4, h5, hmem, hobs⟩, ?_, ?_⟩
                  · simp [dataObserved, dataBuffered, arrivals, hbuf,
                      List.filterMap_append]
                  · rw [satCount_single]
                    simp [hb, hbuf]
  | read =>
      refine ⟨⟨h1, h2, h3, h4, h5, h6, h7⟩, ?_, ?_⟩ <;>
        simp [stepC, readRequest, dataObserved, dataBuffered, arrivals, satCount]
  | pauseC =>
      refine ⟨⟨h1, h2, h3, h4, h5, h6, h7⟩, ?_, ?_⟩ <;>
        simp [stepC, pauseConsumer, dataObserved, dataBuffered, arrivals, satCount]
  | resumeC =>
      refine ⟨⟨h1, h2, h3, h4, h5, h6, h7⟩, ?_, ?_⟩ <;>
        simp [stepC, resumeConsumer, dataObserved, dataBuffered, arrivals, satCount]
  | stop => simp [goodEvent] at hge
  | hwPause => simp [goodEvent] at hge
  | hwResume => simp [goodEvent] at hge
  | destroy err => simp [goodEvent] at hge

lemma steady_run : ∀ (evs : List CEvent) (s : CaptureState), SteadyOK s →
    (∀ e ∈ evs, goodEvent e = true) →
    SteadyOK (runC s evs) ∧
      dataObserved (runC s evs) ++ dataBuffered (runC s evs)
        = dataObserved s ++ dataBuffered s ++ arrivals evs ∧
      (runC s evs).buffer.length ≤ s.buffer.length + satCount s evs := by
  intro evs
  induction evs with
  | nil =>
      intro s hs _
      refine ⟨hs, ?_, ?_⟩ <;> simp [runC, arrivals, satCount]
  | cons e rest ih =>
      intro s hs hg
      have hge : goodEvent e = true := hg e (by simp)
      have hgr : ∀ e' ∈ rest, goodEvent e' = true := fun e' he' => hg e' (by simp [he'])
      obtain ⟨hok, heq, hlen⟩ := steady_step s e hs hge
      obtain ⟨hok2, heq2, hlen2⟩ := ih (stepC s e) hok hgr
      refine ⟨by simpa [runC_cons] using hok2, ?_, ?_⟩
      · rw [runC_cons, heq2, heq]
        cases e <;> simp [arrivals]
      · rw [runC_cons]
        calc (runC (stepC s e) rest).buffer.length
            ≤ (stepC s e).buffer.length + satCount (stepC s e) rest := hlen2
          _ ≤ s.buffer.length + satCount s [e] + satCount (stepC s e) rest := by omega
          _ = s.buffer.length + satCount s (e :: rest) := by
              simp [satCount]
              omega

lemma eq_map_some : ∀ (l : List (Option Nat)), (∀ x ∈ l, x ≠ none) →
    l = (l.filterMap id).map some := by
  intro l
  induction l with
  | nil => simp
  | cons x t ih =>
      intro h
      cases x with
      | none => exact absurd rfl (h none (by simp))
      | some a =>
          have ht : ∀ y ∈ t, y ≠ none := fun y hy => h y (by simp [hy])
          have hcons : ((some a :: t).filterMap id).map some
              = some a :: (t.filterMap id).map some := by simp
          rw [hcons, ← ih ht]

lemma drain_run : ∀ (bs : List (Option Nat)) (s : CaptureState),
    s.buffer = bs →
    s.shouldStop = true → s.shouldClearBuffer = false → s.closed = false →
    s.ended = false → s.shouldBuffer = false → s.streamRunning = true →
    (∀ x ∈ bs, x ≠ none) →
    runC s (List.replicate (bs.length + 1) (CEvent.frame 0 true))
      = { s with
            buffer := []
            ended := true
            observed := s.observed ++ bs ++ [none] } := by
  intro bs
  induction bs with
  | nil =>
      intro s hbuf hstop hclear hclosed hend hsb hrunning _
      obtain ⟨b, sbf, st, sc, cl, so, sr, de, en, ob, cs⟩ := s
      dsimp only at hbuf hstop hclear hclosed hend hsb hrunning
      subst hbuf
      subst hstop
      subst hclear
      subst hclosed
      subst hend
      subst hsb
      subst hrunning
      simp [runC, stepC, frameCallback, pushRaw]
  | cons x t ih =>
      intro s hbuf hstop hclear hclosed hend hsb hrunning hnn
      obtain ⟨f, rfl⟩ : ∃ f, x = some f := by
        cases x with
        | none => exact absurd rfl (hnn none (by simp))
        | some f => exact ⟨f, rfl⟩
      have hnt : ∀ y ∈ t, y ≠ none := fun y hy => hnn y (by simp [hy])
      obtain ⟨b, sbf, st, sc, cl, so, sr, de, en, ob, cs⟩ := s
      dsimp only at hbuf hstop hclear hclosed hend hsb hrunning ⊢
      subst hbuf
      subst hstop
      subst hclear
      subst hclosed
      subst hend
      subst hsb
      subst hrunning
      have hrep : List.replicate ((some f :: t).length + 1) (CEvent.frame 0 true)
          = CEvent.frame 0 true :: List.replicate (t.length + 1) (CEvent.frame 0 true) := by
        simp [List.replicate_succ]
      rw [hrep, runC_cons]
      have hstep : stepC
          { buffer := some f :: t
            shouldBuffer := false
            shouldStop := true
            shouldClearBuffer := false
            closed := false
            streamOpen := so
            streamRunning := true
            destroyed := de
            ended := false
            observed := ob
            closeSignals := cs } (CEvent.frame 0 true)
          = { buffer := t
              shouldBuffer := false
              shouldStop := true
              shouldClearBuffer := false
              closed := false
              streamOpen := so
              streamRunning := true
              destroyed := de
              ended := false
              observed := ob ++ [some f]
              closeSignals := cs } := by
        simp [stepC, frameCallback, pushChecked, pushRaw]
      rw [hstep]
      rw [ih { buffer := t
               shouldBuffer := false
               shouldStop := true
               shouldClearBuffer := false
               closed := false
               streamOpen := so
               streamRunning := true
               destroyed := de
               ended := false
               observed := ob ++ [some f]
               closeSignals := cs }
          rfl rfl rfl rfl rfl rfl rfl hnt]
      simp

lemma ended_frozen : ∀ (evs : List CEvent) (s : CaptureState),
    s.ended = true → s.shouldStop = true → s.buffer = [] →
    (runC s evs).observed = s.observed := by
  intro evs
  induction evs with
  | nil => intro s _ _ _; rfl
  | cons e rest ih =>
      intro s hend hstop hbuf
      have hkeep : (stepC s e).observed = s.observed ∧ (stepC s e).ended = true ∧
          (stepC s e).shouldStop = true ∧ (stepC s e).buffer = [] := by
        cases e with
        | frame i ok =>
            cases hr : s.streamRunning <;>
              cases hc : s.shouldClearBuffer <;>
                cases hcl : s.closed <;>
                  cases hsb : s.shouldBuffer <;>
                    simp [stepC, frameCallback, pushRaw, hr, hc, hcl, hsb,
                      hend, hstop, hbuf]
        | read => simp [stepC, readRequest, hend, hstop, hbuf]
        | pauseC => simp [stepC, pauseConsumer, hend, hstop, hbuf]
        | resumeC => simp [stepC, resumeConsumer, hend, hstop, hbuf]
        | stop => simp [stepC, stopAudio, hend, hstop, hbuf]
        | hwPause =>
            cases hr : s.streamRunning <;>
              simp [stepC, pauseAudio, hr, hend, hstop, hbuf]
        | hwResume =>
            cases hr : s.streamRunning <;>
              simp [stepC, resumeAudio, hr, hend, hstop, hbuf]
        | destroy err =>
            cases hd : s.destroyed <;>
              cases ho : s.streamOpen <;>
                simp [stepC, destroyRead, hd, ho, hend, hstop, hbuf]
      obtain ⟨ho, he, hst, hb2⟩ := hkeep
      rw [runC_cons, ih _ he hst hb2, ho]


lemma not_mem_append_single {l : List (Option Nat)} {a x : Option Nat}
    (h : a ∉ l) (hax : a ≠ x) : a ∉ l ++ [x] := by
  intro hm
  rcases List.mem_append.mp hm with hm | hm
  · exact h hm
  · simp at hm
    exact hax hm

/-- Claim C1: with only frame arrivals and consumer saturation/readiness
transitions (no stop, no hardware pause), the frames the consumer has
observed followed by the frames still queued equal the arrival sequence;
in particular the observed sequence is a prefix of the arrival sequence,
with no frame duplicated, dropped or reordered. -/
theorem capture_fifo_order (evs : List CEvent)
    (hgood : ∀ e ∈ evs, goodEvent e = true) :
    dataObserved (runC initCapture evs) ++ dataBuffered (runC initCapture evs)
        = arrivals evs
    ∧ ∃ rest, dataObserved (runC initCapture evs) ++ rest = arrivals evs := by
  obtain ⟨_, heq, _⟩ := steady_run evs initCapture initCapture_steady hgood
  have h0 : dataObserved initCapture ++ dataBuffered initCapture ++ arrivals evs
      = arrivals evs := by
    simp [dataObserved, dataBuffered, initCapture]
  rw [h0] at heq
  exact ⟨heq, dataBuffered (runC initCapture evs), heq⟩

/-- Witness for `capture_fifo_order` at a concrete event sequence. -/
theorem capture_fifo_order_witness :
    (∀ e ∈ [CEvent.frame 1 true, CEvent.read, CEvent.frame 2 true,
        CEvent.pauseC, CEvent.frame 3 true], goodEvent e = true)
    ∧ (dataObserved (runC initCapture [CEvent.frame 1 true, CEvent.read,
          CEvent.frame 2 true, CEvent.pauseC, CEvent.frame 3 true])
        ++ dataBuffered (runC initCapture [CEvent.frame 1 true, CEvent.read,
          CEvent.frame 2 true, CEvent.pauseC, CEvent.frame 3 true])
        = arrivals [CEvent.frame 1 true, CEvent.read, CEvent.frame 2 true,
          CEvent.pauseC, CEvent.frame 3 true]
      ∧ ∃ rest, dataObserved (runC initCapture [CEvent.frame 1 true, CEvent.read,
          CEvent.frame 2 true, CEvent.pauseC, CEvent.frame 3 true]) ++ rest
          = arrivals [CEvent.frame 1 true, CEvent.read, CEvent.frame 2 true,
            CEvent.pauseC, CEvent.frame 3 true]) :=
  ⟨by decide, capture_fifo_order _ (by decide)⟩

/-- Claim C4 counterexample: after one frame was queued while the consumer
was saturated and saturation then cleared (`_read`), the queue does not
drain monotonically to zero — each further accepted arrival keeps the
queue length at 1 forever (the head departs, the new frame joins the
tail), refuting the claimed monotone decrease to zero. -/
theorem capture_queue_never_drains :
    (runC initCapture [CEvent.frame 1 true, CEvent.read]).shouldBuffer = false
    ∧ (runC initCapture [CEvent.frame 1 true, CEvent.read]).buffer.length = 1
    ∧ (runC initCapture [CEvent.frame 1 true, CEvent.read,
        CEvent.frame 2 true]).buffer.length = 1
    ∧ (runC initCapture [CEvent.frame 1 true, CEvent.read, CEvent.frame 2 true,
        CEvent.frame 3 true]).buffer.length = 1 := by
  decide

/-- Claim C4 (amended): the Capture Queue length never exceeds the number
of frames that arrived while the consumer was saturated; once saturation
clears with frames still queued, an arriving frame is never delivered
directly to the consumer — the old queue head is delivered (the first
buffered frame) and the new frame joins the tail, leaving the queue
length unchanged rather than decreasing to zero. -/
theorem capture_pipelining (evs : List CEvent)
    (hgood : ∀ e ∈ evs, goodEvent e = true) :
    (runC initCapture evs).buffer.length ≤ satCount initCapture evs
    ∧ ∀ (input : Nat) (ok : Bool),
        (runC initCapture evs).shouldBuffer = false →
        (runC initCapture evs).buffer ≠ [] →
        (stepC (runC initCapture evs) (CEvent.frame input ok)).buffer.length
            = (runC initCapture evs).buffer.length
        ∧ dataObserved (stepC (runC initCapture evs) (CEvent.frame input ok))
            = dataObserved (runC initCapture evs)
              ++ (dataBuffered (runC initCapture evs)).take 1 := by
  obtain ⟨hok, _, hlen⟩ := steady_run evs initCapture initCapture_steady hgood
  constructor
  · simpa [initCapture] using hlen
  · intro input ok hsb hne
    obtain ⟨hstop, hclear, hclosed, hend, hrunning, hnn, _⟩ := hok
    cases hbuf : (runC initCapture evs).buffer with
    | nil => exact absurd hbuf hne
    | cons x rest =>
        obtain ⟨f, rfl⟩ : ∃ f, x = some f := by
          cases x with
          | none => exact absurd rfl (hnn none (by rw [hbuf]; simp))
          | some f => exact ⟨f, rfl⟩
        have hstep : stepC (runC initCapture evs) (CEvent.frame input ok)
            = pushChecked
                { runC initCapture evs with buffer := rest ++ [some input] }
                (some f) ok := by
          simp [stepC, hrunning, frameCallback, hclear, hclosed, hstop, hsb, hbuf]
        rw [hstep]
        cases ok with
        | true =>
            refine ⟨?_, ?_⟩ <;>
              simp [pushChecked, pushRaw, hend, dataObserved, dataBuffered, hbuf,
                List.filterMap_append]
        | false =>
            refine ⟨?_, ?_⟩ <;>
              simp [pushChecked, pushRaw, hend, dataObserved, dataBuffered, hbuf,
                List.filterMap_append]

/-- Witness for `capture_pipelining` at a concrete event sequence. -/
theorem capture_pipelining_witness :
    (∀ e ∈ [CEvent.frame 1 true, CEvent.read], goodEvent e = true)
    ∧ ((runC initCapture [CEvent.frame 1 true, CEvent.read]).buffer.length
        ≤ satCount initCapture [CEvent.frame 1 true, CEvent.read]
      ∧ ∀ (input : Nat) (ok : Bool),
          (runC initCapture [CEvent.frame 1 true, CEvent.read]).shouldBuffer = false →
          (runC initCapture [CEvent.frame 1 true, CEvent.read]).buffer ≠ [] →
          (stepC (runC initCapture [CEvent.frame 1 true, CEvent.read])
              (CEvent.frame input ok)).buffer.length
              = (runC initCapture [CEvent.frame 1 true, CEvent.read]).buffer.length
          ∧ dataObserved (stepC (runC initCapture [CEvent.frame 1 true, CEvent.read])
                (CEvent.frame input ok))
              = dataObserved (runC initCapture [CEvent.frame 1 true, CEvent.read])
                ++ (dataBuffered (runC initCapture
                    [CEvent.frame 1 true, CEvent.read])).take 1) :=
  ⟨by decide, capture_pipelining _ (by decide)⟩

/-- Claim C9: once `stopAudio()` has set the stopping flag, the input
frame of any later realtime callback invocation is never appended to the
Capture Queue and never pushed to the consumer: if the frame value is
not already present in the queue or the consumer log, it is still absent
from both after the callback. -/
theorem capture_post_stop_discard (s : CaptureState) (i : Nat) (ok : Bool)
    (hstop : s.shouldStop = true)
    (hbuf : some i ∉ s.buffer) (hobs : some i ∉ s.observed) :
    some i ∉ (frameCallback s i ok).buffer
    ∧ some i ∉ (frameCallback s i ok).observed := by
  cases hclear : s.shouldClearBuffer with
  | true =>
      have hres : frameCallback s i ok
          = { s with shouldClearBuffer := false, buffer := [] } := by
        simp [frameCallback, hclear]
      rw [hres]
      exact ⟨by simp, hobs⟩
  | false =>
      cases hclosed : s.closed with
      | true =>
          have hres : frameCallback s i ok = s := by
            simp [frameCallback, hclear, hclosed]
          rw [hres]
          exact ⟨hbuf, hobs⟩
      | false =>
          cases hsb : s.shouldBuffer with
          | true =>
              by_cases hb0 : s.buffer = []
              · cases hend : s.ended with
                | true =>
                    have hres : frameCallback s i ok = s := by
                      simp [frameCallback, hclear, hclosed, hstop, hsb, hb0,
                        pushRaw, hend]
                    rw [hres]
                    exact ⟨hbuf, hobs⟩
                | false =>
                    have hres : frameCallback s i ok
                        = { s with
                            ended := true
                            observed := s.observed ++ [none] } := by
                      simp [frameCallback, hclear, hclosed, hstop, hsb, hb0,
                        pushRaw, hend]
                    rw [hres]
                    exact ⟨hbuf, not_mem_append_single hobs (by simp)⟩
              · have hres : frameCallback s i ok
                    = { s with buffer := s.buffer ++ [none] } := by
                  simp [frameCallback, hclear, hclosed, hstop, hsb, hb0]
                rw [hres]
                exact ⟨not_mem_append_single hbuf (by simp), hobs⟩
          | false =>
              cases hb : s.buffer with
              | nil =>
                  cases hend : s.ended with
                  | true =>
                      have hres : frameCallback s i ok = s := by
                        simp [frameCallback, hclear, hclosed, hstop, hsb, hb,
                          pushRaw, hend]
                      rw [hres]
                      exact ⟨hbuf, hobs⟩
                  | false =>
                      have hres : frameCallback s i ok
                          = { s with
                              ended := true
                              observed := s.observed ++ [none] } := by
                        simp [frameCallback, hclear, hclosed, hstop, hsb, hb,
                          pushRaw, hend]
                      rw [hres]
                      exact ⟨hbuf, not_mem_append_single hobs (by simp)⟩
              | cons x rest =>
                  have hxne : some i ≠ x := by
                    intro h
                    apply hbuf
                    rw [hb, ← h]
                    exact List.mem_cons_self _ _
                  have hrest : some i ∉ rest := by
                    intro h
                    exact hbuf (by rw [hb]; exact List.mem_cons_of_mem _ h)
                  cases hend : s.ended with
                  | true =>
                      have hres : frameCallback s i ok
                          = { s with buffer := rest, shouldBuffer := true } := by
                        simp [frameCallback, hclear, hclosed, hstop, hsb, hb,
                          pushChecked, pushRaw, hend]
                      rw [hres]
                      exact ⟨hrest, hobs⟩
                  | false =>
                      cases x with
                      | none =>
                          have hres : frameCallback s i ok
                              = { s with
                                  buffer := rest
                                  ended := true
                                  observed := s.observed ++ [none]
                                  shouldBuffer := true } := by
                            simp [frameCallback, hclear, hclosed, hstop, hsb, hb,
                              pushChecked, pushRaw, hend]
                          rw [hres]
                          exact ⟨hrest, not_mem_append_single hobs (by simp)⟩
                      | some g =>
                          cases ok with
                          | true =>
                              have hres : frameCallback s i true
                                  = { s with
                                      buffer := rest
                                      observed := s.observed ++ [some g] } := by
                                simp [frameCallback, hclear, hclosed, hstop, hsb,
                                  hb, pushChecked, pushRaw, hend]
                              rw [hres]
                              exact ⟨hrest, not_mem_append_single hobs hxne⟩
                          | false =>
                              have hres : frameCallback s i false
                                  = { s with
                                      buffer := rest
                                      observed := s.observed ++ [some g]
                                      shouldBuffer := true } := by
                                simp [frameCallback, hclear, hclosed, hstop, hsb,
                                  hb, pushChecked, pushRaw, hend]
                              rw [hres]
                              exact ⟨hrest, not_mem_append_single hobs hxne⟩

/-- Witness for `capture_post_stop_discard` at a concrete state. -/
theorem capture_post_stop_discard_witness :
    (postStopSample.shouldStop = true
      ∧ some 9 ∉ postStopSample.buffer
      ∧ some 9 ∉ postStopSample.observed)
    ∧ (some 9 ∉ (frameCallback postStopSample 9 true).buffer
      ∧ some 9 ∉ (frameCallback postStopSample 9 true).observed) :=
  ⟨by decide, capture_post_stop_discard postStopSample 9 true (by decide)
    (by decide) (by decide)⟩

/-- Claim C3: after `stopAudio()` with the consumer ready, running one
realtime callback per queued frame plus one more delivers every frame
captured before the stop, in arrival order, followed by exactly one
terminal end-of-stream signal; and no consumer-visible push of any kind
occurs after that signal, whatever events follow. -/
theorem capture_end_of_stream (evs1 : List CEvent)
    (hgood : ∀ e ∈ evs1, goodEvent e = true)
    (hready : (runC initCapture evs1).shouldBuffer = false) :
    (stopThenDrain evs1).observed = (arrivals evs1).map some ++ [none]
    ∧ (stopThenDrain evs1).observed.count none = 1
    ∧ ∀ evs2 : List CEvent,
        (runC (stopThenDrain evs1) evs2).observed = (stopThenDrain evs1).observed := by
  obtain ⟨hok, heq, _⟩ := steady_run evs1 initCapture initCapture_steady hgood
  obtain ⟨hstop, hclear, hclosed, hend, hrunning, hnnb, hnno⟩ := hok
  have heq' : (runC initCapture evs1).observed.filterMap id
      ++ (runC initCapture evs1).buffer.filterMap id = arrivals evs1 := by
    simpa [dataObserved, dataBuffered, initCapture] using heq
  have hsplit : stopThenDrain evs1
      = runC (stopAudio (runC initCapture evs1))
          (List.replicate ((runC initCapture evs1).buffer.length + 1)
            (CEvent.frame 0 true)) := by
    unfold stopThenDrain
    rw [runC_append, runC_cons]
    rfl
  have hstate : stopThenDrain evs1
      = { stopAudio (runC initCapture evs1) with
            buffer := []
            ended := true
            observed := (runC initCapture evs1).observed
              ++ (runC initCapture evs1).buffer ++ [none] } := by
    rw [hsplit]
    exact drain_run (runC initCapture evs1).buffer
      (stopAudio (runC initCapture evs1)) rfl rfl
      (by simpa [stopAudio] using hclear)
      (by simpa [stopAudio] using hclosed)
      (by simpa [stopAudio] using hend)
      (by simpa [stopAudio] using hready)
      (by simpa [stopAudio] using hrunning)
      hnnb
  have hobs1 : (stopThenDrain evs1).observed
      = (arrivals evs1).map some ++ [none] := by
    rw [hstate]
    show (runC initCapture evs1).observed
        ++ (runC initCapture evs1).buffer ++ [none] = _
    rw [eq_map_some (runC initCapture evs1).observed hnno,
      eq_map_some (runC initCapture evs1).buffer hnnb,
      ← List.map_append, heq']
  refine ⟨hobs1, ?_, ?_⟩
  · have hz : ((arrivals evs1).map some).count none = 0 :=
      List.count_eq_zero.mpr (by simp)
    simp [hobs1, List.count_append, hz]
  · intro evs2
    rw [hstate]
    exact ended_frozen evs2 _ rfl rfl rfl

/-- Witness for `capture_end_of_stream` at a concrete event sequence. -/
theorem capture_end_of_stream_witness :
    ((∀ e ∈ [CEvent.frame 5 true, CEvent.read, CEvent.frame 6 true],
        goodEvent e = true)
      ∧ (runC initCapture [CEvent.frame 5 true, CEvent.read,
          CEvent.frame 6 true]).shouldBuffer = false)
    ∧ ((stopThenDrain [CEvent.frame 5 true, CEvent.read, CEvent.frame 6 true]).observed
          = (arrivals [CEvent.frame 5 true, CEvent.read,
              CEvent.frame 6 true]).map some ++ [none]
      ∧ (stopThenDrain [CEvent.frame 5 true, CEvent.read,
          CEvent.frame 6 true]).observed.count none = 1
      ∧ ∀ evs2 : List CEvent,
          (runC (stopThenDrain [CEvent.frame 5 true, CEvent.read,
              CEvent.frame 6 true]) evs2).observed
            = (stopThenDrain [CEvent.frame 5 true, CEvent.read,
                CEvent.frame 6 true]).observed) :=
  ⟨⟨by decide, by decide⟩, capture_end_of_stream _ (by decide) (by decide)⟩


lemma runP_nil (s : PlaybackState) : runP s [] = s := rfl

lemma runP_cons (s : PlaybackState) (e : PEvent) (evs : List PEvent) :
    runP s (e :: evs) = runP (stepP s e) evs := rfl

lemma stepP_chunkSize (s : PlaybackState) (e : PEvent) :
    (stepP s e).chunkSize = s.chunkSize := by
  cases e <;>
    simp only [stepP, writeOne, writeMany, writeFrameCallback, destroyWrite,
      finalWrite] <;>
    split_ifs <;> rfl

lemma runP_chunkSize : ∀ (evs : List PEvent) (s : PlaybackState),
    (runP s evs).chunkSize = s.chunkSize := by
  intro evs
  induction evs with
  | nil => intro s; rfl
  | cons e rest ih =>
      intro s
      rw [runP_cons, ih, stepP_chunkSize]

lemma foldl_merge_pull (cs : List (List Nat)) :
    ∀ (x b a : List Nat), x ++ b = a → x ++ cs.foldl merge b = cs.foldl merge a := by
  induction cs with
  | nil =>
      intro x b a h
      simpa using h
  | cons c t ih =>
      intro x b a h
      simp only [List.foldl_cons]
      exact ih x (merge b c) (merge a c) (by simp [merge, ← List.append_assoc, h])

lemma writeFrameCallback_fields (s : PlaybackState) (u : Bool) :
    (writeFrameCallback s u).outputs.flatten ++ (writeFrameCallback s u).buffer
        = s.outputs.flatten ++ s.buffer
    ∧ (writeFrameCallback s u).accepted = s.accepted := by
  by_cases hlen : s.buffer.length < s.chunkSize
  · constructor <;>
      simp only [writeFrameCallback, headSplit, if_pos hlen] <;>
      split_ifs <;> simp
  · have hle : s.chunkSize ≤ s.buffer.length := Nat.le_of_not_lt hlen
    by_cases hpos : 0 < s.chunkSize
    · have htake : 0 < (s.buffer.take s.chunkSize).length := by
        rw [List.length_take]
        exact lt_min hpos (lt_of_lt_of_le hpos hle)
      constructor <;>
        simp only [writeFrameCallback, headSplit, if_neg hlen, if_pos htake] <;>
        split_ifs <;>
        simp [List.flatten_append, List.append_assoc, List.take_append_drop]
    · have hz : s.chunkSize = 0 := by omega
      constructor <;>
        simp only [writeFrameCallback, headSplit, if_neg hlen, hz] <;>
        split_ifs <;>
        simp

lemma playback_inv : ∀ (evs : List PEvent) (s : PlaybackState),
    s.outputs.flatten ++ s.buffer = s.accepted →
    (runP s evs).outputs.flatten ++ (runP s evs).buffer = (runP s evs).accepted := by
  intro evs
  induction evs with
  | nil => intro s h; exact h
  | cons e rest ih =>
      intro s h
      rw [runP_cons]
      apply ih
      cases e with
      | write c =>
          cases hr : s.streamRunning with
          | false => simpa [stepP, writeOne, hr] using h
          | true =>
              have h2 : s.outputs.flatten ++ (s.buffer ++ c) = s.accepted ++ c := by
                rw [← List.append_assoc, h]
              simpa [stepP, writeOne, hr, merge] using h2
      | writev cs =>
          cases hr : s.streamRunning with
          | false => simpa [stepP, writeMany, hr] using h
          | true =>
              have h2 := foldl_merge_pull cs s.outputs.flatten s.buffer s.accepted h
              simpa [stepP, writeMany, hr, merge] using h2
      | cb u =>
          cases hr : s.streamRunning with
          | false => simpa [stepP, hr] using h
          | true =>
              have hf := writeFrameCallback_fields s u
              have hstep : stepP s (PEvent.cb u) = writeFrameCallback s u := by
                simp [stepP, hr]
              rw [hstep, hf.1, hf.2, h]
      | destroy err =>
          cases hd : s.destroyed with
          | true => simpa [stepP, destroyWrite, hd] using h
          | false =>
              cases ho : s.streamOpen with
              | true => simpa [stepP, destroyWrite, hd, ho] using h
              | false => simpa [stepP, destroyWrite, hd, ho] using h
      | finalize => simpa [stepP, finalWrite] using h

lemma destroyRead_destroyed (x : CaptureState) (err : Option Nat)
    (h : x.destroyed = true) : destroyRead x err = x := by
  simp [destroyRead, h]

lemma closed_run : ∀ (evs : List PEvent) (s : PlaybackState),
    s.destroyed = true → s.streamRunning = false →
    (runP s evs).closeSignals = s.closeSignals := by
  intro evs
  induction evs with
  | nil => intro s _ _; rfl
  | cons e rest ih =>
      intro s hd hr
      have hkeep : (stepP s e).closeSignals = s.closeSignals
          ∧ (stepP s e).destroyed = true ∧ (stepP s e).streamRunning = false := by
        cases e with
        | write c => simp [stepP, writeOne, hr, hd]
        | writev cs => simp [stepP, writeMany, hr, hd]
        | cb u => simp [stepP, hr, hd]
        | destroy err => simp [stepP, destroyWrite, hd, hr]
        | finalize => simp [stepP, finalWrite, hd, hr]
      obtain ⟨h1, h2, h3⟩ := hkeep
      rw [runP_cons, ih _ h2 h3, h1]


/-- Claim C2 counterexample: with `chunkBytes = 8` and a single 20-byte
write, the three successive realtime callbacks copy 8, 8 and 0 bytes —
not 8, 8 and 4: when fewer than `chunkBytes` bytes remain, `head`
returns an empty slice and leaves the whole remainder (4 bytes) in the
accumulator, so no final shorter slice is ever delivered. -/
theorem playback_partial_tail_counterexample :
    ((runP (initPlayback paramsScenario)
        [PEvent.write (List.range 20), PEvent.cb false, PEvent.cb false,
          PEvent.cb false]).outputs.map List.length = [8, 8])
    ∧ ((runP (initPlayback paramsScenario)
        [PEvent.write (List.range 20), PEvent.cb false, PEvent.cb false,
          PEvent.cb false]).outputs.map List.length ≠ [8, 8, 4])
    ∧ (runP (initPlayback paramsScenario)
        [PEvent.write (List.range 20), PEvent.cb false, PEvent.cb false,
          PEvent.cb false]).buffer = [16, 17, 18, 19] := by
  decide

/-- Claim C2 (amended): on every realtime callback of a running Playback
Adapter with a positive chunk size, when at least `chunkBytes` bytes are
available exactly `chunkBytes` are removed from the accumulator head and
copied to the output; when fewer than `chunkBytes` bytes are available,
nothing is removed or copied — the remainder stays in the accumulator
(the output is left as silence) instead of forming a shorter final
slice. -/
theorem playback_slice_consumption (s : PlaybackState) (u : Bool)
    (hrun : s.streamRunning = true) (hpos : 0 < s.chunkSize) :
    (s.chunkSize ≤ s.buffer.length →
      (stepP s (PEvent.cb u)).buffer = s.buffer.drop s.chunkSize
      ∧ (stepP s (PEvent.cb u)).outputs = s.outputs ++ [s.buffer.take s.chunkSize])
    ∧ (s.buffer.length < s.chunkSize →
      (stepP s (PEvent.cb u)).buffer = s.buffer
      ∧ (stepP s (PEvent.cb u)).outputs = s.outputs) := by
  constructor
  · intro hge
    have hlt : ¬ s.buffer.length < s.chunkSize := by omega
    have htake : 0 < (s.buffer.take s.chunkSize).length := by
      rw [List.length_take]
      exact lt_min hpos (lt_of_lt_of_le hpos hge)
    constructor <;>
      simp only [stepP, hrun, if_pos, writeFrameCallback, headSplit,
        if_neg hlt, if_pos htake] <;>
      split_ifs <;> rfl
  · intro hlt
    have htake : ¬ 0 < (([] : List Nat)).length := by simp
    constructor <;>
      simp only [stepP, hrun, if_pos, writeFrameCallback, headSplit,
        if_pos hlt] <;>
      split_ifs <;> rfl

/-- Witness for `playback_slice_consumption` at a concrete state: a
running adapter with chunk size 8 holding 20 buffered bytes. -/
theorem playback_slice_consumption_witness :
    ((runP (initPlayback paramsScenario)
          [PEvent.write (List.range 20)]).streamRunning = true
      ∧ 0 < (runP (initPlayback paramsScenario)
          [PEvent.write (List.range 20)]).chunkSize)
    ∧ (((runP (initPlayback paramsScenario)
          [PEvent.write (List.range 20)]).chunkSize
          ≤ (runP (initPlayback paramsScenario)
              [PEvent.write (List.range 20)]).buffer.length →
        (stepP (runP (initPlayback paramsScenario)
            [PEvent.write (List.range 20)]) (PEvent.cb false)).buffer
          = (runP (initPlayback paramsScenario)
              [PEvent.write (List.range 20)]).buffer.drop
              (runP (initPlayback paramsScenario)
                [PEvent.write (List.range 20)]).chunkSize
        ∧ (stepP (runP (initPlayback paramsScenario)
            [PEvent.write (List.range 20)]) (PEvent.cb false)).outputs
          = (runP (initPlayback paramsScenario)
              [PEvent.write (List.range 20)]).outputs
            ++ [(runP (initPlayback paramsScenario)
                [PEvent.write (List.range 20)]).buffer.take
                (runP (initPlayback paramsScenario)
                  [PEvent.write (List.range 20)]).chunkSize])
      ∧ ((runP (initPlayback paramsScenario)
            [PEvent.write (List.range 20)]).buffer.length
          < (runP (initPlayback paramsScenario)
              [PEvent.write (List.range 20)]).chunkSize →
        (stepP (runP (initPlayback paramsScenario)
            [PEvent.write (List.range 20)]) (PEvent.cb false)).buffer
          = (runP (initPlayback paramsScenario)
              [PEvent.write (List.range 20)]).buffer
        ∧ (stepP (runP (initPlayback paramsScenario)
            [PEvent.write (List.range 20)]) (PEvent.cb false)).outputs
          = (runP (initPlayback paramsScenario)
              [PEvent.write (List.range 20)]).outputs)) :=
  ⟨⟨by decide, by decide⟩,
    playback_slice_consumption _ false (by decide) (by decide)⟩

/-- Claim C5: the per-sample byte counts are 1, 2, 4, 4 and 8 for signed
8/16/32-bit integer and 32/64-bit float formats; every Playback Adapter
construction fixes `chunkSize = bufferFrames * channels * bytesPerSample`
with the format defaulting to 16-bit signed when omitted, and no
sequence of events ever changes it. -/
theorem chunk_size_invariant :
    (formatToByteCount RtAudioFormat.sint8 = 1
      ∧ formatToByteCount RtAudioFormat.sint16 = 2
      ∧ formatToByteCount RtAudioFormat.sint32 = 4
      ∧ formatToByteCount RtAudioFormat.float32 = 4
      ∧ formatToByteCount RtAudioFormat.float64 = 8)
    ∧ (∀ p : AudioIOParams, (initPlayback p).chunkSize
        = p.bufferFrames * p.channels
          * formatToByteCount (p.fmt.getD RtAudioFormat.sint16))
    ∧ (∀ p : AudioIOParams, p.fmt = none →
        (initPlayback p).chunkSize = p.bufferFrames * p.channels * 2)
    ∧ ∀ (p : AudioIOParams) (evs : List PEvent),
        (runP (initPlayback p) evs).chunkSize = chunkSizeOf p := by
  refine ⟨⟨rfl, rfl, rfl, rfl, rfl⟩, fun p => rfl, ?_, ?_⟩
  · intro p hp
    simp [initPlayback, chunkSizeOf, hp, formatToByteCount]
  · intro p evs
    rw [runP_chunkSize]
    rfl

/-- Witness for `chunk_size_invariant` (the omitted-format conjunct) at
a concrete parameter record. -/
theorem chunk_size_invariant_witness :
    paramsDefaultFmt.fmt = none
    ∧ (initPlayback paramsDefaultFmt).chunkSize
        = paramsDefaultFmt.bufferFrames * paramsDefaultFmt.channels * 2 :=
  ⟨by decide, chunk_size_invariant.2.2.1 paramsDefaultFmt (by decide)⟩

/-- Claim C6: a `write` (or `writev`) on a Playback Adapter whose
hardware stream is not running completes without error, invokes its
completion callback immediately, leaves the accumulator — and the whole
state apart from the acknowledgment count — unchanged, and therefore no
byte of the chunk ever appears in any subsequent output slice. -/
theorem playback_drop_when_not_running (s : PlaybackState) (chunk : List Nat)
    (chunks : List (List Nat)) (h : s.streamRunning = false) :
    writeOne s chunk = { s with acks := s.acks + 1 }
    ∧ writeMany s chunks = { s with acks := s.acks + 1 }
    ∧ ∀ evs : List PEvent,
        (runP (writeOne s chunk) evs).outputs
          = (runP { s with acks := s.acks + 1 } evs).outputs := by
  have h1 : writeOne s chunk = { s with acks := s.acks + 1 } := by
    simp [writeOne, h]
  have h2 : writeMany s chunks = { s with acks := s.acks + 1 } := by
    simp [writeMany, h]
  exact ⟨h1, h2, fun evs => by rw [h1]⟩

/-- Witness for `playback_drop_when_not_running` at a concrete state. -/
theorem playback_drop_when_not_running_witness :
    pausedPlayback.streamRunning = false
    ∧ (writeOne pausedPlayback [1, 2, 3]
          = { pausedPlayback with acks := pausedPlayback.acks + 1 }
      ∧ writeMany pausedPlayback [[4], [5]]
          = { pausedPlayback with acks := pausedPlayback.acks + 1 }
      ∧ ∀ evs : List PEvent,
          (runP (writeOne pausedPlayback [1, 2, 3]) evs).outputs
            = (runP { pausedPlayback with
                acks := pausedPlayback.acks + 1 } evs).outputs) :=
  ⟨by decide,
    playback_drop_when_not_running pausedPlayback [1, 2, 3] [[4], [5]] (by decide)⟩

/-- Claim C7: destroying a Playback Adapter whose Audio Engine stream is
still open defers the completion callback to the realtime callback path,
where it fires exactly once with the captured error (and never again, no
matter what events follow, a second destroy included); destroying a
Playback Adapter whose stream is already closed invokes the callback
immediately, and a second destroy adds nothing; the Capture Adapter's
destroy likewise fires its callback exactly once across two calls. -/
theorem idempotent_close
    (s t : PlaybackState) (c : CaptureState) (e1 e2 e3 e4 d1 d2 : Option Nat)
    (hs1 : s.streamOpen = true) (hs2 : s.streamRunning = true)
    (hs3 : s.destroyed = false)
    (hs5 : s.buffer.length < s.chunkSize) (hs6 : s.closeSignals = [])
    (ht1 : t.streamOpen = false) (ht2 : t.destroyed = false)
    (ht3 : t.closeSignals = [])
    (hc1 : c.destroyed = false) (hc2 : c.closeSignals = []) :
    ((destroyWrite s e1).closeSignals = []
      ∧ (stepP (destroyWrite s e1) (PEvent.cb false)).closeSignals = [e1]
      ∧ (destroyWrite (stepP (destroyWrite s e1) (PEvent.cb false)) e2).closeSignals
          = [e1]
      ∧ ∀ evs : List PEvent,
          (runP (stepP (destroyWrite s e1) (PEvent.cb false)) evs).closeSignals
            = [e1])
    ∧ ((destroyWrite t e3).closeSignals = [e3]
      ∧ (destroyWrite (destroyWrite t e3) e4).closeSignals = [e3])
    ∧ ((destroyRead c d1).closeSignals = [d1]
      ∧ (destroyRead (destroyRead c d1) d2).closeSignals = [d1]) := by
  have hd1 : destroyWrite s e1
      = { s with
          destroyed := true
          shouldClose := true
          destroyCbSet := true
          destroyError := e1 } := by
    simp [destroyWrite, hs3, hs1]
  have hd2 : stepP (destroyWrite s e1) (PEvent.cb false)
      = { s with
          destroyed := true
          shouldClose := true
          destroyCbSet := true
          destroyError := e1
          streamOpen := false
          streamRunning := false
          closeSignals := [e1] } := by
    rw [hd1]
    simp [stepP, hs2, writeFrameCallback, headSplit, hs5, hs6]
  refine ⟨⟨?_, ?_, ?_, ?_⟩, ⟨?_, ?_⟩, ⟨?_, ?_⟩⟩
  · rw [hd1]
    exact hs6
  · rw [hd2]
  · rw [hd2]
    simp [destroyWrite]
  · intro evs
    rw [hd2]
    exact closed_run evs _ rfl rfl
  · simp [destroyWrite, ht2, ht1, ht3]
  · have hd3 : destroyWrite t e3
        = { t with
            destroyed := true
            shouldClose := true
            closeSignals := [e3] } := by
      simp [destroyWrite, ht2, ht1, ht3]
    rw [hd3]
    simp [destroyWrite]
  · cases ho : c.streamOpen with
    | true => simp [destroyRead, hc1, ho, hc2]
    | false => simp [destroyRead, hc1, ho, hc2]
  · have hd4 : (destroyRead c d1).destroyed = true := by
      cases ho : c.streamOpen with
      | true => simp [destroyRead, hc1, ho]
      | false => simp [destroyRead, hc1, ho]
    have hd5 : (destroyRead c d1).closeSignals = [d1] := by
      cases ho : c.streamOpen with
      | true => simp [destroyRead, hc1, ho, hc2]
      | false => simp [destroyRead, hc1, ho, hc2]
    rw [destroyRead_destroyed _ d2 hd4]
    exact hd5

/-- Witness for `idempotent_close` at concrete states. -/
theorem idempotent_close_witness :
    ((initPlayback paramsScenario).streamOpen = true
      ∧ (initPlayback paramsScenario).streamRunning = true
      ∧ (initPlayback paramsScenario).destroyed = false
      ∧ (initPlayback paramsScenario).buffer.length
          < (initPlayback paramsScenario).chunkSize
      ∧ (initPlayback paramsScenario).closeSignals = []
      ∧ closedPlayback.streamOpen = false
      ∧ closedPlayback.destroyed = false
      ∧ closedPlayback.closeSignals = []
      ∧ initCapture.destroyed = false
      ∧ initCapture.closeSignals = [])
    ∧ (((destroyWrite (initPlayback paramsScenario) (some 3)).closeSignals = []
      ∧ (stepP (destroyWrite (initPlayback paramsScenario) (some 3))
          (PEvent.cb false)).closeSignals = [some 3]
      ∧ (destroyWrite (stepP (destroyWrite (initPlayback paramsScenario) (some 3))
          (PEvent.cb false)) (some 4)).closeSignals = [some 3]
      ∧ ∀ evs : List PEvent,
          (runP (stepP (destroyWrite (initPlayback paramsScenario) (some 3))
            (PEvent.cb false)) evs).closeSignals = [some 3])
    ∧ ((destroyWrite closedPlayback none).closeSignals = [none]
      ∧ (destroyWrite (destroyWrite closedPlayback none) (some 5)).closeSignals
          = [none])
    ∧ ((destroyRead initCapture none).closeSignals = [none]
      ∧ (destroyRead (destroyRead initCapture none) (some 6)).closeSignals
          = [none])) :=
  ⟨by decide,
    idempotent_close (initPlayback paramsScenario) closedPlayback initCapture
      (some 3) (some 4) none (some 5) none (some 6)
      (by decide) (by decide) (by decide) (by decide) (by decide)
      (by decide) (by decide) (by decide) (by decide) (by decide)⟩

/-- Claim C8 (code-bug evidence): the `AudioReadStream` and
`AudioInputStream` constructors ignore `params.highWaterMark` — the
stream high-water-mark is always the chunk byte size — although the
parameter record and the class documentation advertise the override;
the `AudioWriteStream` constructor does honour it. -/
theorem read_high_water_mark_ignores_override :
    paramsOverride.highWaterMark = some 999
    ∧ readHighWaterMark paramsOverride = 8
    ∧ readHighWaterMark paramsOverride ≠ 999
    ∧ writeHighWaterMark paramsOverride = 999 := by
  decide

/-- Claim C10: the bytes copied into Audio Engine output buffers,
concatenated in order, together with the bytes still buffered, equal the
bytes accepted by writes while the stream was running; in particular the
played byte stream is a prefix of the accepted byte stream — nothing is
duplicated, reordered or fabricated. -/
theorem playback_byte_order (p : AudioIOParams) (evs : List PEvent) :
    (runP (initPlayback p) evs).outputs.flatten
        ++ (runP (initPlayback p) evs).buffer
      = (runP (initPlayback p) evs).accepted
    ∧ ∃ rest, (runP (initPlayback p) evs).outputs.flatten ++ rest
        = (runP (initPlayback p) evs).accepted := by
  have h := playback_inv evs (initPlayback p) (by simp [initPlayback])
  exact ⟨h, (runP (initPlayback p) evs).buffer, h⟩

end Sonance
